import Mathlib

/-!
Shallow embedding of the WhatsApp-Scheduler backend (`src/server.js`).

Timestamps: the server stores every timestamp as an ISO-8601 UTC string
(`toISOString`) and re-parses it with `new Date(...)` before arithmetic or
comparison.  A valid ISO timestamp is exactly a canonical civil datetime
(year, 0-based month, 1-based day, milliseconds within the day), so we model
a JavaScript `Date` value by that civil structure.  On canonical values,
lexicographic order of the fields coincides with the order of the underlying
epoch time values, and the `setDate`/`setMonth`-based arithmetic used by the
server coincides with calendar successor/predecessor steps; the definitions
below implement exactly those steps (ECMAScript `MakeDay` semantics restricted
to canonical inputs, which are the only ones the server produces).
-/

/-- Civil UTC datetime modelling a JavaScript `Date`: `month` is 0-based as in
`getMonth`, `day` is 1-based as in `getDate`, `ms` is the millisecond offset
within the day. -/
structure JsDate where
  year : Int
  month : Int
  day : Int
  ms : Int
deriving DecidableEq, Repr

/-- Leap-year test, as in the ECMAScript `DaysInYear` definition. -/
def isLeap (y : Int) : Bool :=
  (y % 4 == 0 && y % 100 != 0) || y % 400 == 0

/-- Number of days in 0-based month `m` of year `y` (months outside 0..11 do
not arise on canonical dates; the final branch is arbitrary). -/
def daysInMonth (y m : Int) : Int :=
  if m = 0 then 31
  else if m = 1 then (if isLeap y then 29 else 28)
  else if m = 2 then 31
  else if m = 3 then 30
  else if m = 4 then 31
  else if m = 5 then 30
  else if m = 6 then 31
  else if m = 7 then 31
  else if m = 8 then 30
  else if m = 9 then 31
  else if m = 10 then 30
  else 31

/-- Canonical civil datetime: the shape every `toISOString` output has. -/
def Canonical (t : JsDate) : Prop :=
  0 ≤ t.month ∧ t.month ≤ 11 ∧ 1 ≤ t.day ∧ t.day ≤ daysInMonth t.year t.month
    ∧ 0 ≤ t.ms ∧ t.ms < 86400000

instance (t : JsDate) : Decidable (Canonical t) := by
  unfold Canonical; infer_instance

/-- Strict order on `JsDate`, modelling `<` on JavaScript `Date` objects
(comparison of epoch time values; on canonical civil datetimes this is the
lexicographic field order, the same order as on the ISO strings). -/
def jsLt (a b : JsDate) : Prop :=
  a.year < b.year ∨ (a.year = b.year ∧
    (a.month < b.month ∨ (a.month = b.month ∧
      (a.day < b.day ∨ (a.day = b.day ∧ a.ms < b.ms)))))

instance (a b : JsDate) : Decidable (jsLt a b) := by
  unfold jsLt; infer_instance

/-- Non-strict order on `JsDate`, modelling `<=` on JavaScript `Date`s. -/
def jsLe (a b : JsDate) : Prop := jsLt a b ∨ a = b

instance (a b : JsDate) : Decidable (jsLe a b) := by
  unfold jsLe; infer_instance

/-- Step to the next calendar day: the effect of
`d.setDate(d.getDate() + 1)` on a canonical date (ECMAScript `MakeDay`
normalisation of a day overflow). -/
def addOneDay (t : JsDate) : JsDate :=
  if t.day < daysInMonth t.year t.month then { t with day := t.day + 1 }
  else if t.month < 11 then { t with month := t.month + 1, day := 1 }
  else { year := t.year + 1, month := 0, day := 1, ms := t.ms }

/-- Effect of `d.setDate(d.getDate() + n)` on a canonical date: `n` calendar
successor steps (day-number arithmetic adds exactly `n` days). -/
def jsAddDays (t : JsDate) : Nat → JsDate
  | 0 => t
  | n + 1 => addOneDay (jsAddDays t n)

/-- Step to the previous calendar day: the effect of
`d.setDate(d.getDate() - 1)` on a canonical date. -/
def subOneDay (t : JsDate) : JsDate :=
  if 1 < t.day then { t with day := t.day - 1 }
  else if 0 < t.month then { t with month := t.month - 1, day := daysInMonth t.year (t.month - 1) }
  else { year := t.year - 1, month := 11, day := 31, ms := t.ms }

/-- Effect of `d.setDate(d.getDate() - n)` on a canonical date: `n` calendar
predecessor steps. -/
def jsSubDays (t : JsDate) : Nat → JsDate
  | 0 => t
  | n + 1 => subOneDay (jsSubDays t n)

/-- Effect of `d.setMonth(d.getMonth() + 1)` on a canonical date (ECMAScript
`MakeDay`: keep the day-of-month, advance the month with year carry, then
normalise a day overflow into the following month — the overflow is at most
three days, so a single carry suffices). -/
def jsAddMonth (t : JsDate) : JsDate :=
  let y1 : Int := if t.month = 11 then t.year + 1 else t.year
  let m1 : Int := if t.month = 11 then 0 else t.month + 1
  if t.day ≤ daysInMonth y1 m1 then { year := y1, month := m1, day := t.day, ms := t.ms }
  else
    let y2 : Int := if m1 = 11 then y1 + 1 else y1
    let m2 : Int := if m1 = 11 then 0 else m1 + 1
    { year := y2, month := m2, day := t.day - daysInMonth y1 m1, ms := t.ms }

theorem daysInMonth_bounds (y m : Int) :
    28 ≤ daysInMonth y m ∧ daysInMonth y m ≤ 31 := by
  unfold daysInMonth
  repeat' split
  all_goals omega

theorem jsLt_asymm {a b : JsDate} (h : jsLt a b) : ¬ jsLt b a := by
  unfold jsLt at *; omega

theorem jsLt_trans {a b c : JsDate} (h1 : jsLt a b) (h2 : jsLt b c) : jsLt a c := by
  unfold jsLt at *; omega

theorem jsLt_trichotomy (a b : JsDate) : jsLt a b ∨ a = b ∨ jsLt b a := by
  obtain ⟨ay, am, ad, ams⟩ := a
  obtain ⟨by', bm, bd, bms⟩ := b
  simp only [jsLt, JsDate.mk.injEq]
  omega

theorem daysInMonth_eleven (y : Int) : daysInMonth y 11 = 31 := by
  norm_num [daysInMonth]

theorem subOneDay_canonical {t : JsDate} (h : Canonical t) :
    Canonical (subOneDay t) := by
  obtain ⟨y, m, d, ms⟩ := t
  have hb := daysInMonth_bounds y m
  have hb2 := daysInMonth_bounds y (m - 1)
  have hb3 := daysInMonth_eleven (y - 1)
  unfold Canonical at h
  unfold subOneDay Canonical
  dsimp only at h ⊢
  split
  · dsimp only; omega
  · split
    · dsimp only; omega
    · dsimp only; omega

theorem subOneDay_lt {t : JsDate} (h : Canonical t) : jsLt (subOneDay t) t := by
  obtain ⟨y, m, d, ms⟩ := t
  unfold Canonical at h
  unfold subOneDay jsLt
  dsimp only at h ⊢
  split
  · dsimp only; omega
  · split
    · dsimp only; omega
    · dsimp only; omega

theorem jsSubDays_canonical {t : JsDate} (h : Canonical t) (n : Nat) :
    Canonical (jsSubDays t n) := by
  induction n with
  | zero => exact h
  | succ k ih => exact subOneDay_canonical ih

theorem jsSubDays_lt_succ {t : JsDate} (h : Canonical t) (n : Nat) :
    jsLt (jsSubDays t (n + 1)) (jsSubDays t n) :=
  subOneDay_lt (jsSubDays_canonical h n)

/-- Characters kept by the server's phone-number cleaning regex
`replace(/[^0-9+]/g, '')`: decimal digits and the plus sign. -/
def keepPhoneChar (c : Char) : Bool := c.isDigit || c == '+'

/-- Model of `str.replace(/[^0-9+]/g, '')`. -/
def cleanChars (l : List Char) : List Char := l.filter keepPhoneChar

/-- Drop a single leading plus sign, modelling
`cleaned.startsWith('+') ? cleaned.substring(1) : cleaned`. -/
def stripLeadPlus : List Char → List Char
  | [] => []
  | c :: cs => if c = '+' then cs else c :: cs

/-- Model of `formatPhoneNumber` (server.js:387-398): strip every character
that is not a digit or a plus, drop one leading plus, append `@c.us`. -/
def formatPhoneNumber (phone : String) : String :=
  String.mk (stripLeadPlus (cleanChars phone.data) ++ "@c.us".data)

/-- Decides whether `pat` occurs at the start of `l`. -/
def listHasPre : List Char → List Char → Bool
  | [], _ => true
  | _ :: _, [] => false
  | p :: ps, c :: cs => p == c && listHasPre ps cs

/-- Decides whether `pat` occurs anywhere in `l`. -/
def listHasSub (pat : List Char) : List Char → Bool
  | [] => listHasPre pat []
  | c :: cs => listHasPre pat (c :: cs) || listHasSub pat cs

/-- Model of JavaScript `s.includes(pat)`. -/
def jsIncludes (s pat : String) : Bool := listHasSub pat.data s.data

/-- Scheduled-message record (the object built in the `POST /api/schedule`
handler, server.js:225-233, and by `scheduleNextRepeat`, server.js:495-504).
Optional fields are absent (`none`) until the corresponding assignment runs.
The JavaScript property `repeat` keeps its name. -/
structure MsgData where
  id : String
  recipient : String
  message : String
  scheduledTime : JsDate
  «repeat» : String
  status : String
  createdAt : JsDate
  updatedAt : Option JsDate
  sentAt : Option JsDate
  error : Option String
  parentId : Option String
deriving DecidableEq, Repr

/-- HTTP outcome of a handler: a success body or `res.status(code).json`
with the handler's error string. -/
inductive ApiResp (α : Type) where
  | ok (v : α)
  | err (code : Nat) (msg : String)
deriving DecidableEq, Repr

/-- JavaScript truthiness of an optional string request field: absent
(`undefined`) and the empty string are falsy. -/
def isTruthyS : Option String → Bool
  | none => false
  | some s => s != ""

/-- Model of `repeat || 'none'` in the schedule handler. -/
def orNone : Option String → String
  | none => "none"
  | some s => if s = "" then "none" else s

/-- Model of the `POST /api/schedule` handler (server.js:195-243).  `now` is
the instant `new Date()` returns during the request (the handler reads the
clock twice, for validation and for `createdAt`; both reads are modelled as
the same instant), `freshId` the value drawn from `uuidv4()`, and
`scheduledTime` the parsed request timestamp (`none` models a missing field).
Returns the HTTP outcome together with the updated message list. -/
def postSchedule (recipient message : Option String) (scheduledTime : Option JsDate)
    (rpt : Option String) (now : JsDate) (freshId : String)
    (store : List MsgData) : ApiResp MsgData × List MsgData :=
  if !isTruthyS recipient || !isTruthyS message || scheduledTime.isNone then
    (.err 400 "Missing required fields: recipient, message, scheduledTime", store)
  else
    let cleanPhone := cleanChars ((recipient.getD "").data)
    if cleanPhone.length < 10 then
      (.err 400 "Invalid phone number format", store)
    else
      let scheduleDate := scheduledTime.getD ⟨0, 0, 1, 0⟩
      if jsLe scheduleDate now then
        (.err 400 "Scheduled time must be in the future", store)
      else
        let newMessage : MsgData :=
          { id := freshId
            recipient := String.mk (if cleanPhone.head? = some '+' then cleanPhone else '+' :: cleanPhone)
            message := message.getD ""
            scheduledTime := scheduleDate
            «repeat» := orNone rpt
            status := "pending"
            createdAt := now
            updatedAt := none
            sentAt := none
            error := none
            parentId := none }
        (.ok newMessage, store ++ [newMessage])

/-- Field patching performed by the `PUT /api/messages/:id` handler
(server.js:293-300): each supplied (truthy) field overwrites the record —
with no validation of any kind — and `updatedAt` is stamped. -/
def applyPatch (m : MsgData) (recipient message : Option String)
    (scheduledTime : Option JsDate) (rpt : Option String) (now : JsDate) : MsgData :=
  let m1 := if isTruthyS recipient then { m with recipient := recipient.getD "" } else m
  let m2 := if isTruthyS message then { m1 with message := message.getD "" } else m1
  let m3 := match scheduledTime with
            | some t => { m2 with scheduledTime := t }
            | none => m2
  let m4 := if isTruthyS rpt then { m3 with «repeat» := rpt.getD "" } else m3
  { m4 with updatedAt := some now }

/-- Model of the `PUT /api/messages/:id` handler (server.js:274-306):
`findIndex` locates the first record with the given id; a missing record is a
404, a non-pending record a 400, and otherwise the patch is applied in place. -/
def putMessage : List MsgData → String → Option String → Option String →
    Option JsDate → Option String → JsDate → ApiResp MsgData × List MsgData
  | [], _, _, _, _, _, _ => (.err 404 "Message not found", [])
  | m :: rest, id, recipient, message, scheduledTime, rpt, now =>
    if m.id = id then
      if m.status = "pending" then
        let m' := applyPatch m recipient message scheduledTime rpt now
        (.ok m', m' :: rest)
      else
        (.err 400 "Can only edit pending messages", m :: rest)
    else
      let res := putMessage rest id recipient message scheduledTime rpt now
      (res.1, m :: res.2)

/-- Model of the `DELETE /api/messages/:id` handler (server.js:309-326):
`findIndex` plus `splice` removes the first record with the given id,
with no check of its status. -/
def deleteMessage : List MsgData → String → ApiResp String × List MsgData
  | [], _ => (.err 404 "Message not found", [])
  | m :: rest, id =>
    if m.id = id then
      (.ok "Message cancelled successfully", rest)
    else
      let res := deleteMessage rest id
      (res.1, m :: res.2)

/-- Model of the daily cleanup cron job (server.js:529-543): keep a record
when it is pending or its `createdAt` is strictly later than `now` minus
seven days (`sevenDaysAgo.setDate(sevenDaysAgo.getDate() - 7)`). -/
def cleanup (store : List MsgData) (now : JsDate) : List MsgData :=
  store.filter fun m => m.status == "pending" || decide (jsLt (jsSubDays now 7) m.createdAt)

/-- Next-occurrence computation in `scheduleNextRepeat` (server.js:479-493):
the `switch` on `repeat` advances the *original* `scheduledTime` by one day,
seven days, or one month; any other value returns without scheduling. -/
def nextRepeatTime (rpt : String) (t : JsDate) : Option JsDate :=
  if rpt = "daily" then some (jsAddDays t 1)
  else if rpt = "weekly" then some (jsAddDays t 7)
  else if rpt = "monthly" then some (jsAddMonth t)
  else none

/-- Model of `scheduleNextRepeat` (server.js:478-508): for a repeating record
it pushes one new pending record onto the message list — `freshId` models the
`uuidv4()` draw and `now` the `new Date()` used for `createdAt` — and for the
`default` case it returns the list unchanged. -/
def scheduleNextRepeat (store : List MsgData) (msgData : MsgData)
    (freshId : String) (now : JsDate) : List MsgData :=
  match nextRepeatTime msgData.«repeat» msgData.scheduledTime with
  | none => store
  | some nextTime =>
      store ++ [{ id := freshId
                  recipient := msgData.recipient
                  message := msgData.message
                  scheduledTime := nextTime
                  «repeat» := msgData.«repeat»
                  status := "pending"
                  createdAt := now
                  updatedAt := none
                  sentAt := none
                  error := none
                  parentId := some msgData.id }]

/-- Behaviour of the external client during one delivery attempt:
either `client.getState()` throws with the given message, or it returns the
given state string, in which case `send` describes `client.sendMessage`
(`none` = resolves, `some e` = throws with message `e`).  One value per
attempt number forms the environment of a delivery invocation. -/
inductive AttemptSpec where
  | getStateThrows (msg : String)
  | state (s : String) (send : Option String)
deriving DecidableEq, Repr

/-- Error message raised by one attempt of the `try` block in
`sendWhatsAppMessage` (server.js:416-424), or `none` when the attempt
succeeds: a `getState` failure propagates, a state other than `CONNECTED`
raises the interpolated state error, and otherwise `sendMessage` decides. -/
def attemptError : AttemptSpec → Option String
  | .getStateThrows m => some m
  | .state s send =>
      if s = "CONNECTED" then send
      else some ("Client state is " ++ s ++ ", not CONNECTED")

/-- Classification in the `catch` block (server.js:442): an error whose
message contains `Session closed` or `Protocol error` is a session fault. -/
def isSessionFault (m : String) : Bool :=
  jsIncludes m "Session closed" || jsIncludes m "Protocol error"

/-- Number of network calls one attempt makes against the client:
`getState` always, plus `sendMessage` when the state comes back `CONNECTED`. -/
def attemptCalls : AttemptSpec → Nat
  | .getStateThrows _ => 1
  | .state s _ => if s = "CONNECTED" then 2 else 1

/-- Model of `lastError?.message || 'Unknown error'` (server.js:470): an
absent error — and also an empty message, which is falsy — yields
`Unknown error`. -/
def orUnknown : Option String → String
  | none => "Unknown error"
  | some m => if m = "" then "Unknown error" else m

/-- Outcome of one `sendWhatsAppMessage` invocation: the mutated record, the
message list (with any recurrence continuation pushed), the final value of the
`isConnected` flag, the list of `setTimeout` delays performed (in ms, in
order), the number of network calls made against the client, and the boolean
return value. -/
structure SendResult where
  msg : MsgData
  store : List MsgData
  connected : Bool
  delays : List Nat
  calls : Nat
  ret : Bool
deriving DecidableEq, Repr

/-- Retry loop of `sendWhatsAppMessage` (server.js:415-465), recursing on the
number of attempts left (`fuel`; `attempt` is the 1-based loop counter, so
`attempt + fuel = maxRetries + 1` throughout).  A successful attempt marks the
record `sent`, stamps `sentAt`, and — when `repeat` is truthy and not `none` —
runs `scheduleNextRepeat`; a session-fault error clears the connection flag,
destroys and reinitialises the client (two more calls) around 5s and 10s
waits; any other error waits `2000 * attempt` ms.  Exhausted fuel lands on
server.js:467-471: the record is marked `failed` with the last error. -/
def sendLoop (env : Nat → AttemptSpec) (now : JsDate) (freshId : String) :
    Nat → Nat → List MsgData → MsgData → Bool → Option String → List Nat → Nat → SendResult
  | 0, _, store, msg, conn, lastError, delays, calls =>
    { msg := { msg with status := "failed", error := some (orUnknown lastError) }
      store := store, connected := conn, delays := delays, calls := calls, ret := false }
  | fuel + 1, attempt, store, msg, conn, lastError, delays, calls =>
    match attemptError (env attempt) with
    | none =>
      let msg' := { msg with status := "sent", sentAt := some now }
      let store' := if msg'.«repeat» ≠ "" ∧ msg'.«repeat» ≠ "none"
                    then scheduleNextRepeat store msg' freshId now else store
      { msg := msg', store := store', connected := conn, delays := delays
        calls := calls + attemptCalls (env attempt), ret := true }
    | some e =>
      if isSessionFault e then
        sendLoop env now freshId fuel (attempt + 1) store msg false (some e)
          (delays ++ [5000, 10000]) (calls + attemptCalls (env attempt) + 2)
      else
        sendLoop env now freshId fuel (attempt + 1) store msg conn (some e)
          (delays ++ [2000 * attempt]) (calls + attemptCalls (env attempt))

/-- Model of `sendWhatsAppMessage` (server.js:404-472).  `env` is the oracle
describing what the external client does on each attempt, `connected` the
value of the `isConnected` flag on entry, `store` the message list.  When the
flag is down the function fails the record immediately — no attempt, no
network call, no delay, no continuation (server.js:405-410); otherwise the
retry loop runs with `maxRetries = 3` starting at attempt 1. -/
def sendWhatsAppMessage (env : Nat → AttemptSpec) (store : List MsgData)
    (msg : MsgData) (now : JsDate) (freshId : String) (connected : Bool) : SendResult :=
  if connected then
    sendLoop env now freshId 3 1 store msg connected none [] 0
  else
    { msg := { msg with status := "failed", error := some "WhatsApp not connected" }
      store := store, connected := connected, delays := [], calls := 0, ret := false }

theorem sendLoop_zero (env : Nat → AttemptSpec) (now : JsDate) (freshId : String)
    (attempt : Nat) (store : List MsgData) (msg : MsgData) (conn : Bool)
    (lastErr : Option String) (delays : List Nat) (calls : Nat) :
    sendLoop env now freshId 0 attempt store msg conn lastErr delays calls =
      { msg := { msg with status := "failed", error := some (orUnknown lastErr) }
        store := store, connected := conn, delays := delays, calls := calls, ret := false } := rfl

theorem sendLoop_err_generic (env : Nat → AttemptSpec) (now : JsDate) (freshId : String)
    (fuel attempt : Nat) (store : List MsgData) (msg : MsgData) (conn : Bool)
    (lastErr : Option String) (delays : List Nat) (calls : Nat) (e : String)
    (h : attemptError (env attempt) = some e) (hf : isSessionFault e = false) :
    sendLoop env now freshId (fuel + 1) attempt store msg conn lastErr delays calls =
      sendLoop env now freshId fuel (attempt + 1) store msg conn (some e)
        (delays ++ [2000 * attempt]) (calls + attemptCalls (env attempt)) := by
  simp only [sendLoop]
  rw [h]
  simp [hf]

theorem sendLoop_err_fault (env : Nat → AttemptSpec) (now : JsDate) (freshId : String)
    (fuel attempt : Nat) (store : List MsgData) (msg : MsgData) (conn : Bool)
    (lastErr : Option String) (delays : List Nat) (calls : Nat) (e : String)
    (h : attemptError (env attempt) = some e) (hf : isSessionFault e = true) :
    sendLoop env now freshId (fuel + 1) attempt store msg conn lastErr delays calls =
      sendLoop env now freshId fuel (attempt + 1) store msg false (some e)
        (delays ++ [5000, 10000]) (calls + attemptCalls (env attempt) + 2) := by
  simp only [sendLoop]
  rw [h]
  simp [hf]

theorem sendLoop_success (env : Nat → AttemptSpec) (now : JsDate) (freshId : String)
    (fuel attempt : Nat) (store : List MsgData) (msg : MsgData) (conn : Bool)
    (lastErr : Option String) (delays : List Nat) (calls : Nat)
    (h : attemptError (env attempt) = none) :
    sendLoop env now freshId (fuel + 1) attempt store msg conn lastErr delays calls =
      { msg := { msg with status := "sent", sentAt := some now }
        store := if msg.«repeat» ≠ "" ∧ msg.«repeat» ≠ "none"
                 then scheduleNextRepeat store { msg with status := "sent", sentAt := some now } freshId now
                 else store
        connected := conn, delays := delays
        calls := calls + attemptCalls (env attempt), ret := true } := by
  simp only [sendLoop]
  rw [h]

/-- C1: a due message dispatched while the connection flag is down is failed
immediately: the record becomes `failed` with the error `WhatsApp not
connected` (which contains the words `not connected`), no network call is
made, no delay is taken, the message list is untouched — so no
recurrence-continuation record is created even when `repeat` is set — and the
function returns `false`. -/
theorem c1_dispatch_while_disconnected (env : Nat → AttemptSpec) (store : List MsgData)
    (msg : MsgData) (now : JsDate) (freshId : String) :
    (sendWhatsAppMessage env store msg now freshId false).msg.status = "failed"
    ∧ (sendWhatsAppMessage env store msg now freshId false).msg.error
        = some "WhatsApp not connected"
    ∧ jsIncludes "WhatsApp not connected" "not connected" = true
    ∧ (sendWhatsAppMessage env store msg now freshId false).calls = 0
    ∧ (sendWhatsAppMessage env store msg now freshId false).delays = []
    ∧ (sendWhatsAppMessage env store msg now freshId false).store = store
    ∧ (sendWhatsAppMessage env store msg now freshId false).ret = false := by
  refine ⟨rfl, rfl, by decide, rfl, rfl, rfl, rfl⟩

theorem sendLoop_terminal (env : Nat → AttemptSpec) (now : JsDate) (freshId : String) :
    ∀ (fuel attempt : Nat) (store : List MsgData) (msg : MsgData) (conn : Bool)
      (lastErr : Option String) (delays : List Nat) (calls : Nat),
      ((sendLoop env now freshId fuel attempt store msg conn lastErr delays calls).msg.status = "sent"
        ∨ (sendLoop env now freshId fuel attempt store msg conn lastErr delays calls).msg.status = "failed")
      ∧ ((sendLoop env now freshId fuel attempt store msg conn lastErr delays calls).ret = true
        ↔ (sendLoop env now freshId fuel attempt store msg conn lastErr delays calls).msg.status = "sent") := by
  intro fuel
  induction fuel with
  | zero =>
    intro attempt store msg conn lastErr delays calls
    rw [sendLoop_zero]
    simp
  | succ k ih =>
    intro attempt store msg conn lastErr delays calls
    cases h : attemptError (env attempt) with
    | none =>
      rw [sendLoop_success env now freshId k attempt store msg conn lastErr delays calls h]
      simp
    | some e =>
      cases hf : isSessionFault e with
      | false =>
        rw [sendLoop_err_generic env now freshId k attempt store msg conn lastErr delays calls e h hf]
        exact ih (attempt + 1) store msg conn (some e) (delays ++ [2000 * attempt])
          (calls + attemptCalls (env attempt))
      | true =>
        rw [sendLoop_err_fault env now freshId k attempt store msg conn lastErr delays calls e h hf]
        exact ih (attempt + 1) store msg false (some e) (delays ++ [5000, 10000])
          (calls + attemptCalls (env attempt) + 2)

/-- C10: whatever the connection flag and whatever the external client does on
each attempt, `sendWhatsAppMessage` leaves the record in a terminal status —
exactly `sent` or `failed`, never `pending` — and returns `true` exactly when
the final status is `sent`. -/
theorem c10_delivery_terminal (env : Nat → AttemptSpec) (store : List MsgData)
    (msg : MsgData) (now : JsDate) (freshId : String) (connected : Bool) :
    ((sendWhatsAppMessage env store msg now freshId connected).msg.status = "sent"
      ∨ (sendWhatsAppMessage env store msg now freshId connected).msg.status = "failed")
    ∧ ((sendWhatsAppMessage env store msg now freshId connected).ret = true
      ↔ (sendWhatsAppMessage env store msg now freshId connected).msg.status = "sent") := by
  cases connected with
  | true =>
    unfold sendWhatsAppMessage
    simp only [if_true]
    exact sendLoop_terminal env now freshId 3 1 store msg true none [] 0
  | false =>
    unfold sendWhatsAppMessage
    simp

/-- C3: when the session is connected and all three attempts raise generic
errors — errors whose messages are not classified as session faults — the
delays slept are `2000 * 1`, `2000 * 2`, `2000 * 3` ms, i.e. 2s, 4s, 6s, and
the record ends `failed` after the third attempt with return value `false`. -/
theorem c3_linear_backoff (env : Nat → AttemptSpec) (store : List MsgData)
    (msg : MsgData) (now : JsDate) (freshId : String) (e1 e2 e3 : String)
    (h1 : attemptError (env 1) = some e1) (hg1 : isSessionFault e1 = false)
    (h2 : attemptError (env 2) = some e2) (hg2 : isSessionFault e2 = false)
    (h3 : attemptError (env 3) = some e3) (hg3 : isSessionFault e3 = false) :
    (sendWhatsAppMessage env store msg now freshId true).delays = [2000, 4000, 6000]
    ∧ (sendWhatsAppMessage env store msg now freshId true).msg.status = "failed"
    ∧ (sendWhatsAppMessage env store msg now freshId true).ret = false := by
  unfold sendWhatsAppMessage
  simp only [if_true]
  rw [sendLoop_err_generic env now freshId 2 1 store msg true none [] 0 e1 h1 hg1]
  rw [sendLoop_err_generic env now freshId 1 2 store msg true (some e1) _ _ e2 h2 hg2]
  rw [sendLoop_err_generic env now freshId 0 3 store msg true (some e2) _ _ e3 h3 hg3]
  rw [sendLoop_zero]
  norm_num

/-- Witness for `c3_linear_backoff`: every attempt reports state `CONNECTED`
and `sendMessage` rejects with the generic message `boom`. -/
theorem c3_linear_backoff_witness :
    (sendWhatsAppMessage (fun _ => .state "CONNECTED" (some "boom")) []
        ⟨"id1", "+15551230000", "hi", ⟨2026, 0, 31, 0⟩, "daily", "pending",
          ⟨2026, 0, 1, 0⟩, none, none, none, none⟩
        ⟨2026, 1, 1, 0⟩ "f2" true).delays = [2000, 4000, 6000]
    ∧ (sendWhatsAppMessage (fun _ => .state "CONNECTED" (some "boom")) []
        ⟨"id1", "+15551230000", "hi", ⟨2026, 0, 31, 0⟩, "daily", "pending",
          ⟨2026, 0, 1, 0⟩, none, none, none, none⟩
        ⟨2026, 1, 1, 0⟩ "f2" true).msg.status = "failed"
    ∧ (sendWhatsAppMessage (fun _ => .state "CONNECTED" (some "boom")) []
        ⟨"id1", "+15551230000", "hi", ⟨2026, 0, 31, 0⟩, "daily", "pending",
          ⟨2026, 0, 1, 0⟩, none, none, none, none⟩
        ⟨2026, 1, 1, 0⟩ "f2" true).ret = false :=
  c3_linear_backoff _ _ _ _ _ "boom" "boom" "boom"
    (by decide) (by decide) (by decide) (by decide) (by decide) (by decide)

theorem sendLoop_err_step (env : Nat → AttemptSpec) (now : JsDate) (freshId : String)
    (fuel attempt : Nat) (store : List MsgData) (msg : MsgData) (conn : Bool)
    (lastErr : Option String) (delays : List Nat) (calls : Nat) (e : String)
    (h : attemptError (env attempt) = some e) :
    ∃ conn2 delays2 calls2,
      sendLoop env now freshId (fuel + 1) attempt store msg conn lastErr delays calls =
      sendLoop env now freshId fuel (attempt + 1) store msg conn2 (some e) delays2 calls2 := by
  cases hf : isSessionFault e with
  | false =>
    exact ⟨conn, _, _,
      sendLoop_err_generic env now freshId fuel attempt store msg conn lastErr delays calls e h hf⟩
  | true =>
    exact ⟨false, _, _,
      sendLoop_err_fault env now freshId fuel attempt store msg conn lastErr delays calls e h hf⟩

/-- Sample environment in which every attempt reaches `sendMessage` and the
send rejects with an empty error message (`new Error('')`). -/
def emptyErrEnv : Nat → AttemptSpec := fun _ => .state "CONNECTED" (some "")

/-- Sample scheduled message used by concrete instantiations. -/
def sampleMsg : MsgData :=
  ⟨"id1", "+15551230000", "hi", ⟨2026, 0, 31, 0⟩, "daily", "pending",
    ⟨2026, 0, 1, 0⟩, none, none, none, none⟩

/-- Sample dispatch instant used by concrete instantiations. -/
def sampleNow : JsDate := ⟨2026, 1, 1, 0⟩

/-- C5 counterexample: in a delivery invocation whose three attempts all fail
with an error whose message is the empty string, the last observed error
message is `""`, yet the record's `error` field ends up `Unknown error` — the
`lastError?.message || 'Unknown error'` fallback treats the empty message as
falsy — so the field does not record the last observed error message. -/
theorem c5_counterexample_empty_message :
    attemptError (emptyErrEnv 1) = some "" ∧ attemptError (emptyErrEnv 2) = some ""
    ∧ attemptError (emptyErrEnv 3) = some ""
    ∧ (sendWhatsAppMessage emptyErrEnv [] sampleMsg sampleNow "f2" true).msg.status = "failed"
    ∧ (sendWhatsAppMessage emptyErrEnv [] sampleMsg sampleNow "f2" true).msg.error
        = some "Unknown error"
    ∧ (some "Unknown error" : Option String) ≠ some "" := by
  refine ⟨rfl, rfl, rfl, rfl, rfl, by decide⟩

/-- C5 (amended): a delivery invocation whose three attempts all fail marks
the record `failed` and returns `false`, and records the last observed error
message in the `error` field — except that an empty last message is recorded
as `Unknown error`. -/
theorem c5_exhaustion_records_last_error (env : Nat → AttemptSpec) (store : List MsgData)
    (msg : MsgData) (now : JsDate) (freshId : String) (e1 e2 e3 : String)
    (h1 : attemptError (env 1) = some e1)
    (h2 : attemptError (env 2) = some e2)
    (h3 : attemptError (env 3) = some e3) :
    (sendWhatsAppMessage env store msg now freshId true).msg.status = "failed"
    ∧ (sendWhatsAppMessage env store msg now freshId true).msg.error
        = some (if e3 = "" then "Unknown error" else e3)
    ∧ (sendWhatsAppMessage env store msg now freshId true).ret = false := by
  unfold sendWhatsAppMessage
  simp only [if_true]
  obtain ⟨c1, d1, k1, hs1⟩ :=
    sendLoop_err_step env now freshId 2 1 store msg true none [] 0 e1 h1
  rw [hs1]
  obtain ⟨c2, d2, k2, hs2⟩ :=
    sendLoop_err_step env now freshId 1 2 store msg c1 (some e1) d1 k1 e2 h2
  rw [hs2]
  obtain ⟨c3, d3, k3, hs3⟩ :=
    sendLoop_err_step env now freshId 0 3 store msg c2 (some e2) d2 k2 e3 h3
  rw [hs3]
  rw [sendLoop_zero]
  simp [orUnknown]

/-- Witness for `c5_exhaustion_records_last_error`: three generic failures
with messages `a`, `b`, `c`; the record ends `failed` with error `c`. -/
theorem c5_exhaustion_witness :
    (sendWhatsAppMessage (fun n => .state "CONNECTED"
        (some (if n = 1 then "a" else if n = 2 then "b" else "c")))
        [] sampleMsg sampleNow "f2" true).msg.status = "failed"
    ∧ (sendWhatsAppMessage (fun n => .state "CONNECTED"
        (some (if n = 1 then "a" else if n = 2 then "b" else "c")))
        [] sampleMsg sampleNow "f2" true).msg.error
        = some (if ("c" : String) = "" then "Unknown error" else "c")
    ∧ (sendWhatsAppMessage (fun n => .state "CONNECTED"
        (some (if n = 1 then "a" else if n = 2 then "b" else "c")))
        [] sampleMsg sampleNow "f2" true).ret = false :=
  c5_exhaustion_records_last_error _ _ _ _ _ "a" "b" "c"
    (by decide) (by decide) (by decide)

theorem sendLoop_store_spec (env : Nat → AttemptSpec) (now : JsDate) (freshId : String)
    (msg : MsgData)
    (hrep : msg.«repeat» = "none" ∨ msg.«repeat» = "daily" ∨ msg.«repeat» = "weekly"
      ∨ msg.«repeat» = "monthly") :
    ∀ (fuel attempt : Nat) (store : List MsgData) (conn : Bool) (lastErr : Option String)
      (delays : List Nat) (calls : Nat),
      ((sendLoop env now freshId fuel attempt store msg conn lastErr delays calls).ret = true →
        (sendLoop env now freshId fuel attempt store msg conn lastErr delays calls).msg.status = "sent"
        ∧ (sendLoop env now freshId fuel attempt store msg conn lastErr delays calls).msg.sentAt = some now
        ∧ (msg.«repeat» = "none" →
            (sendLoop env now freshId fuel attempt store msg conn lastErr delays calls).store = store)
        ∧ (msg.«repeat» ≠ "none" →
            ∃ nr, (sendLoop env now freshId fuel attempt store msg conn lastErr delays calls).store
                    = store ++ [nr]
              ∧ nr.parentId = some msg.id ∧ nr.status = "pending"))
      ∧ ((sendLoop env now freshId fuel attempt store msg conn lastErr delays calls).ret = false →
        (sendLoop env now freshId fuel attempt store msg conn lastErr delays calls).store = store) := by
  intro fuel
  induction fuel with
  | zero =>
    intro attempt store conn lastErr delays calls
    rw [sendLoop_zero]
    simp
  | succ k ih =>
    intro attempt store conn lastErr delays calls
    cases h : attemptError (env attempt) with
    | none =>
      rw [sendLoop_success env now freshId k attempt store msg conn lastErr delays calls h]
      refine ⟨fun _ => ⟨rfl, rfl, fun hn => ?_, fun hn => ?_⟩, fun hfalse => ?_⟩
      · simp [hn]
      · rcases hrep with h0 | h0 | h0 | h0
        · exact absurd h0 hn
        all_goals
          simp only [h0]
          simp only [scheduleNextRepeat, nextRepeatTime]
          norm_num
          rw [if_pos (by decide)]
          exact ⟨_, rfl, rfl, rfl⟩
      · simp at hfalse
    | some e =>
      obtain ⟨c2, d2, k2, hs⟩ :=
        sendLoop_err_step env now freshId k attempt store msg conn lastErr delays calls e h
      rw [hs]
      exact ih (attempt + 1) store c2 (some e) d2 k2

/-- C4: for a record whose `repeat` value is one of the four documented kinds,
a delivery invocation that returns `true` has marked the record `sent` and
stamped `sentAt`, and has pushed exactly one recurrence-continuation record
(a new pending record with `parentId` pointing at the sent record) precisely
when `repeat` is a repeating kind, i.e. not `none`; an invocation that returns
`false` never creates a continuation. -/
theorem c4_success_creates_one_continuation (env : Nat → AttemptSpec)
    (store : List MsgData) (msg : MsgData) (now : JsDate) (freshId : String)
    (connected : Bool)
    (hrep : msg.«repeat» = "none" ∨ msg.«repeat» = "daily" ∨ msg.«repeat» = "weekly"
      ∨ msg.«repeat» = "monthly") :
    ((sendWhatsAppMessage env store msg now freshId connected).ret = true →
      (sendWhatsAppMessage env store msg now freshId connected).msg.status = "sent"
      ∧ (sendWhatsAppMessage env store msg now freshId connected).msg.sentAt = some now
      ∧ (msg.«repeat» = "none" →
          (sendWhatsAppMessage env store msg now freshId connected).store = store)
      ∧ (msg.«repeat» ≠ "none" →
          ∃ nr, (sendWhatsAppMessage env store msg now freshId connected).store = store ++ [nr]
            ∧ nr.parentId = some msg.id ∧ nr.status = "pending"))
    ∧ ((sendWhatsAppMessage env store msg now freshId connected).ret = false →
      (sendWhatsAppMessage env store msg now freshId connected).store = store) := by
  cases connected with
  | true =>
    unfold sendWhatsAppMessage
    simp only [if_true]
    exact sendLoop_store_spec env now freshId msg hrep 3 1 store true none [] 0
  | false =>
    unfold sendWhatsAppMessage
    simp

/-- Witness for `c4_success_creates_one_continuation`: the first attempt
succeeds on a daily-repeating record. -/
theorem c4_success_witness :
    ((sendWhatsAppMessage (fun _ => .state "CONNECTED" none) [] sampleMsg sampleNow "f2" true).ret = true →
      (sendWhatsAppMessage (fun _ => .state "CONNECTED" none) [] sampleMsg sampleNow "f2" true).msg.status = "sent"
      ∧ (sendWhatsAppMessage (fun _ => .state "CONNECTED" none) [] sampleMsg sampleNow "f2" true).msg.sentAt = some sampleNow
      ∧ (sampleMsg.«repeat» = "none" →
          (sendWhatsAppMessage (fun _ => .state "CONNECTED" none) [] sampleMsg sampleNow "f2" true).store = [])
      ∧ (sampleMsg.«repeat» ≠ "none" →
          ∃ nr, (sendWhatsAppMessage (fun _ => .state "CONNECTED" none) [] sampleMsg sampleNow "f2" true).store = [] ++ [nr]
            ∧ nr.parentId = some sampleMsg.id ∧ nr.status = "pending"))
    ∧ ((sendWhatsAppMessage (fun _ => .state "CONNECTED" none) [] sampleMsg sampleNow "f2" true).ret = false →
      (sendWhatsAppMessage (fun _ => .state "CONNECTED" none) [] sampleMsg sampleNow "f2" true).store = []) :=
  c4_success_creates_one_continuation (fun _ => .state "CONNECTED" none) [] sampleMsg
    sampleNow "f2" true (by decide)

/-- C6: for a repeating record, `scheduleNextRepeat` appends exactly one new
record to the message list and touches nothing else (in particular the parent
record, an element of the list, is unchanged).  The new record carries the
freshly drawn id, the parent's recipient, body and `repeat`, status
`pending`, the fresh `createdAt` instant, `parentId` equal to the parent's
id, and a `scheduledTime` obtained from the parent's *original*
`scheduledTime` by one calendar day for `daily`, seven calendar days for
`weekly`, and one `setMonth`-style calendar month for `monthly`. -/
theorem c6_recurrence_produces_linked_record (store : List MsgData) (p : MsgData)
    (freshId : String) (now : JsDate)
    (hrep : p.«repeat» = "daily" ∨ p.«repeat» = "weekly" ∨ p.«repeat» = "monthly") :
    scheduleNextRepeat store p freshId now =
      store ++ [{ id := freshId
                  recipient := p.recipient
                  message := p.message
                  scheduledTime :=
                    if p.«repeat» = "daily" then jsAddDays p.scheduledTime 1
                    else if p.«repeat» = "weekly" then jsAddDays p.scheduledTime 7
                    else jsAddMonth p.scheduledTime
                  «repeat» := p.«repeat»
                  status := "pending"
                  createdAt := now
                  updatedAt := none
                  sentAt := none
                  error := none
                  parentId := some p.id }] := by
  rcases hrep with h | h | h <;> simp [scheduleNextRepeat, nextRepeatTime, h]

/-- Witness for `c6_recurrence_produces_linked_record`: expanding the sample
daily message scheduled for 2026-01-31 yields one pending record scheduled
for 2026-02-01 with `parentId = "id1"`. -/
theorem c6_recurrence_witness :
    scheduleNextRepeat [] sampleMsg "f2" sampleNow =
      [] ++ [{ id := "f2"
               recipient := sampleMsg.recipient
               message := sampleMsg.message
               scheduledTime :=
                 if sampleMsg.«repeat» = "daily" then jsAddDays sampleMsg.scheduledTime 1
                 else if sampleMsg.«repeat» = "weekly" then jsAddDays sampleMsg.scheduledTime 7
                 else jsAddMonth sampleMsg.scheduledTime
               «repeat» := sampleMsg.«repeat»
               status := "pending"
               createdAt := sampleNow
               updatedAt := none
               sentAt := none
               error := none
               parentId := some sampleMsg.id }] :=
  c6_recurrence_produces_linked_record [] sampleMsg "f2" sampleNow (by decide)

/-- C7: when the first record with the requested id is not `pending`, any
edit request gets the 400 error `Can only edit pending messages` and leaves
the message list untouched, while a delete request against the same id
succeeds — deletion is not status-gated — removing exactly one record. -/
theorem c7_edit_gated_delete_not (store : List MsgData) (id : String) (r : MsgData)
    (recipient message : Option String) (sched : Option JsDate) (rpt : Option String)
    (now : JsDate)
    (hfind : store.find? (fun m => m.id == id) = some r)
    (hst : r.status ≠ "pending") :
    (putMessage store id recipient message sched rpt now).1
        = .err 400 "Can only edit pending messages"
    ∧ (putMessage store id recipient message sched rpt now).2 = store
    ∧ (deleteMessage store id).1 = .ok "Message cancelled successfully"
    ∧ (deleteMessage store id).2.length + 1 = store.length := by
  induction store with
  | nil => simp at hfind
  | cons m rest ih =>
    by_cases hm : m.id = id
    · have hr : r = m := by
        rw [List.find?_cons_of_pos _ (by simpa using hm)] at hfind
        exact (Option.some_inj.mp hfind).symm
      subst hr
      simp [putMessage, deleteMessage, hm, hst]
    · have hfind' : rest.find? (fun m => m.id == id) = some r := by
        rwa [List.find?_cons_of_neg _ (by simpa using hm)] at hfind
      obtain ⟨ih1, ih2, ih3, ih4⟩ := ih hfind'
      refine ⟨?_, ?_, ?_, ?_⟩ <;>
        simp [putMessage, deleteMessage, hm, ih1, ih2, ih3]
      omega

/-- Witness for `c7_edit_gated_delete_not`: a store holding one `sent` record
with id `id9`. -/
theorem c7_edit_gated_witness :
    (putMessage [{ sampleMsg with id := "id9", status := "sent" }] "id9"
        none none none none sampleNow).1 = .err 400 "Can only edit pending messages"
    ∧ (putMessage [{ sampleMsg with id := "id9", status := "sent" }] "id9"
        none none none none sampleNow).2 = [{ sampleMsg with id := "id9", status := "sent" }]
    ∧ (deleteMessage [{ sampleMsg with id := "id9", status := "sent" }] "id9").1
        = .ok "Message cancelled successfully"
    ∧ (deleteMessage [{ sampleMsg with id := "id9", status := "sent" }] "id9").2.length + 1
        = [{ sampleMsg with id := "id9", status := "sent" }].length :=
  c7_edit_gated_delete_not [{ sampleMsg with id := "id9", status := "sent" }] "id9"
    { sampleMsg with id := "id9", status := "sent" } none none none none sampleNow
    (by decide) (by decide)

/-- C8: for a store whose records carry the three documented statuses and a
canonical sweep instant, the cleanup job removes exactly the terminal (`sent`
or `failed`) records whose `createdAt` is not after the seven-days-ago cutoff
and keeps everything else; in particular a terminal record created eight days
ago is removed, any record created six days ago is retained, and a pending
record is retained whatever its `createdAt`. -/
theorem c8_retention_sweep (store : List MsgData) (now : JsDate)
    (hnow : Canonical now)
    (hstat : ∀ m ∈ store, m.status = "pending" ∨ m.status = "sent" ∨ m.status = "failed") :
    (∀ m ∈ store, (m ∉ cleanup store now ↔
        ((m.status = "sent" ∨ m.status = "failed") ∧ ¬ jsLt (jsSubDays now 7) m.createdAt)))
    ∧ (∀ m ∈ store, (m.status = "sent" ∨ m.status = "failed") →
        m.createdAt = jsSubDays now 8 → m ∉ cleanup store now)
    ∧ (∀ m ∈ store, m.createdAt = jsSubDays now 6 → m ∈ cleanup store now)
    ∧ (∀ m ∈ store, m.status = "pending" → m ∈ cleanup store now) := by
  have hchar : ∀ m ∈ store,
      (m ∈ cleanup store now ↔ (m.status = "pending" ∨ jsLt (jsSubDays now 7) m.createdAt)) := by
    intro m hm
    simp [cleanup, List.mem_filter, hm]
  refine ⟨?_, ?_, ?_, ?_⟩
  · intro m hm
    rw [hchar m hm]
    have hs := hstat m hm
    constructor
    · intro hnot
      push_neg at hnot
      rcases hs with h0 | h0 | h0
      · exact absurd h0 hnot.1
      · exact ⟨Or.inl h0, hnot.2⟩
      · exact ⟨Or.inr h0, hnot.2⟩
    · rintro ⟨h0, h1⟩ h2
      rcases h2 with h2 | h2
      · rcases h0 with h0 | h0 <;> rw [h0] at h2 <;> exact absurd h2 (by decide)
      · exact h1 h2
  · intro m hm h0 h1
    rw [hchar m hm]
    rintro (h2 | h2)
    · rcases h0 with h0 | h0 <;> rw [h0] at h2 <;> exact absurd h2 (by decide)
    · rw [h1] at h2
      exact jsLt_asymm (jsSubDays_lt_succ hnow 7) h2
  · intro m hm h1
    rw [hchar m hm]
    right
    rw [h1]
    exact jsSubDays_lt_succ hnow 6
  · intro m hm h0
    rw [hchar m hm]
    exact Or.inl h0

/-- Sample store for the retention sweep: a terminal record created eight
days before the sweep, a terminal record created six days before it, and a
pending record created thirty days before it. -/
def sweepStore : List MsgData :=
  [{ sampleMsg with id := "a", status := "sent", createdAt := jsSubDays sampleNow 8 },
   { sampleMsg with id := "b", status := "failed", createdAt := jsSubDays sampleNow 6 },
   { sampleMsg with id := "c", status := "pending", createdAt := jsSubDays sampleNow 30 }]

/-- Witness for `c8_retention_sweep` at the sample store and sweep instant. -/
theorem c8_retention_witness :
    (∀ m ∈ sweepStore, (m ∉ cleanup sweepStore sampleNow ↔
        ((m.status = "sent" ∨ m.status = "failed")
          ∧ ¬ jsLt (jsSubDays sampleNow 7) m.createdAt)))
    ∧ (∀ m ∈ sweepStore, (m.status = "sent" ∨ m.status = "failed") →
        m.createdAt = jsSubDays sampleNow 8 → m ∉ cleanup sweepStore sampleNow)
    ∧ (∀ m ∈ sweepStore, m.createdAt = jsSubDays sampleNow 6 → m ∈ cleanup sweepStore sampleNow)
    ∧ (∀ m ∈ sweepStore, m.status = "pending" → m ∈ cleanup sweepStore sampleNow) :=
  c8_retention_sweep sweepStore sampleNow (by decide) (by decide)

theorem applyPatch_scheduledTime (m : MsgData) (recB msgB rptB : Option String)
    (schedB : JsDate) (now : JsDate) :
    (applyPatch m recB msgB (some schedB) rptB now).scheduledTime = schedB := by
  simp only [applyPatch]
  split_ifs <;> rfl

theorem putMessage_pending_accepts (storeB : List MsgData) (id : String) (r : MsgData)
    (recB msgB rptB : Option String) (schedB : JsDate) (now : JsDate)
    (hfind : storeB.find? (fun m => m.id == id) = some r)
    (hpend : r.status = "pending") :
    ∃ r2, (putMessage storeB id recB msgB (some schedB) rptB now).1 = .ok r2
      ∧ r2.scheduledTime = schedB := by
  induction storeB with
  | nil => simp at hfind
  | cons m rest ih =>
    by_cases hm : m.id = id
    · have hr : r = m := by
        rw [List.find?_cons_of_pos _ (by simpa using hm)] at hfind
        exact (Option.some_inj.mp hfind).symm
      subst hr
      refine ⟨applyPatch r recB msgB (some schedB) rptB now, ?_, ?_⟩
      · simp [putMessage, hm, hpend]
      · exact applyPatch_scheduledTime r recB msgB rptB schedB now
    · have hfind' : rest.find? (fun m => m.id == id) = some r := by
        rwa [List.find?_cons_of_neg _ (by simpa using hm)] at hfind
      obtain ⟨r2, h1, h2⟩ := ih hfind'
      exact ⟨r2, by simp [putMessage, hm, h1], h2⟩

/-- Sample past instant, strictly before `sampleNow`. -/
def pastDate : JsDate := ⟨2020, 0, 1, 0⟩

/-- C2 counterexample: the claim says an edit supplying a non-future
`scheduledTime` fails, but the `PUT /api/messages/:id` handler performs no
time validation: editing the pending sample record with a `scheduledTime`
strictly in the past succeeds (HTTP success, record updated to the past
instant). -/
theorem c2_counterexample_edit_accepts_past :
    jsLt pastDate sampleNow
    ∧ (putMessage [sampleMsg] "id1" none none (some pastDate) none sampleNow).1
        = .ok { sampleMsg with scheduledTime := pastDate, updatedAt := some sampleNow }
    ∧ (putMessage [sampleMsg] "id1" none none (some pastDate) none sampleNow).2
        = [{ sampleMsg with scheduledTime := pastDate, updatedAt := some sampleNow }] := by
  refine ⟨by decide, by decide, by decide⟩

/-- C2 (amended): at creation the supplied `scheduledTime` must be strictly
later than the validation instant — a request whose time is not in the
future, in particular one equal to `now`, is rejected with the 400 error
`Scheduled time must be in the future` and nothing is stored.  Edits,
however, perform no such validation: an edit of a pending record supplying
any `scheduledTime` whatsoever (future or not) succeeds and stores it. -/
theorem c2_creation_strictly_future_edit_unvalidated
    (recipient message : String) (sched : JsDate) (rpt : Option String)
    (now : JsDate) (freshId : String) (storeA : List MsgData)
    (hr : recipient ≠ "") (hm : message ≠ "")
    (hph : ¬ (cleanChars recipient.data).length < 10)
    (hnf : jsLe sched now)
    (storeB : List MsgData) (id : String) (r : MsgData)
    (recB msgB rptB : Option String) (schedB : JsDate)
    (hfind : storeB.find? (fun m => m.id == id) = some r)
    (hpend : r.status = "pending") :
    (postSchedule (some recipient) (some message) (some sched) rpt now freshId storeA).1
        = .err 400 "Scheduled time must be in the future"
    ∧ (postSchedule (some recipient) (some message) (some sched) rpt now freshId storeA).2
        = storeA
    ∧ ∃ r2, (putMessage storeB id recB msgB (some schedB) rptB now).1 = .ok r2
        ∧ r2.scheduledTime = schedB := by
  refine ⟨?_, ?_, putMessage_pending_accepts storeB id r recB msgB rptB schedB now hfind hpend⟩
  · simp [postSchedule, isTruthyS, hr, hm, hph, hnf]
  · simp [postSchedule, isTruthyS, hr, hm, hph, hnf]

/-- Witness for `c2_creation_strictly_future_edit_unvalidated`: a creation
request whose `scheduledTime` equals the validation instant (the boundary
case) and an edit of the pending sample record supplying a past instant. -/
theorem c2_creation_witness :
    (postSchedule (some "+15551230000") (some "hi") (some sampleNow) none sampleNow "f9" []).1
        = .err 400 "Scheduled time must be in the future"
    ∧ (postSchedule (some "+15551230000") (some "hi") (some sampleNow) none sampleNow "f9" []).2
        = []
    ∧ ∃ r2, (putMessage [sampleMsg] "id1" none none (some pastDate) none sampleNow).1 = .ok r2
        ∧ r2.scheduledTime = pastDate :=
  c2_creation_strictly_future_edit_unvalidated "+15551230000" "hi" sampleNow none
    sampleNow "f9" [] (by decide) (by decide) (by decide) (Or.inr rfl)
    [sampleMsg] "id1" sampleMsg none none none pastDate (by decide) (by decide)

/-- Shape test on a character list: an optional single leading plus sign
followed only by decimal digits. -/
def plusThenDigits : List Char → Bool
  | [] => true
  | c :: cs => if c = '+' then cs.all (fun d => d.isDigit) else (c :: cs).all (fun d => d.isDigit)

/-- C9 counterexample: the claim says every input normalizes to
`<digits>@c.us`, but `formatPhoneNumber` keeps every `+` and strips only one
leading `+`: on `1+234567890` the output is `1+234567890@c.us`, whose part
before the network suffix is not all digits — no all-digit prefix `ds` can
write the output as `ds ++ "@c.us"`. -/
theorem c9_counterexample_inner_plus :
    formatPhoneNumber "1+234567890" = "1+234567890@c.us"
    ∧ ¬ ∃ ds : List Char, ds.all (fun c => c.isDigit) = true
        ∧ formatPhoneNumber "1+234567890" = String.mk (ds ++ "@c.us".data) := by
  refine ⟨by decide, ?_⟩
  rintro ⟨ds, hall, heq⟩
  have h1 : formatPhoneNumber "1+234567890"
      = String.mk ("1+234567890".data ++ "@c.us".data) := by decide
  rw [h1] at heq
  have h2 : "1+234567890".data ++ "@c.us".data = ds ++ "@c.us".data := by
    simpa using congrArg String.data heq
  have h3 : "1+234567890".data = ds := List.append_cancel_right h2
  rw [← h3] at hall
  exact absurd hall (by decide)

/-- C9 (amended): whenever the cleaned form of the input (digits and plus
signs) is an optional single leading plus followed only by digits — which
holds for every ordinarily written phone number — `formatPhoneNumber`
produces `<digits>@c.us`: the output is the stripped cleaned prefix followed
by the network suffix, and that prefix consists only of digits.  In general
the prefix may retain interior or repeated plus signs. -/
theorem c9_normalizes_to_digits (phone : String)
    (h : plusThenDigits (cleanChars phone.data) = true) :
    formatPhoneNumber phone
      = String.mk (stripLeadPlus (cleanChars phone.data) ++ "@c.us".data)
    ∧ (stripLeadPlus (cleanChars phone.data)).all (fun c => c.isDigit) = true := by
  refine ⟨rfl, ?_⟩
  cases hc : cleanChars phone.data with
  | nil => simp [stripLeadPlus]
  | cons c cs =>
    rw [hc] at h
    by_cases h1 : c = '+'
    · rw [stripLeadPlus, if_pos h1]
      rw [plusThenDigits, if_pos h1] at h
      exact h
    · rw [stripLeadPlus, if_neg h1]
      rw [plusThenDigits, if_neg h1] at h
      exact h

/-- Witness for `c9_normalizes_to_digits`: a typical formatted number with a
leading plus, spaces and a dash. -/
theorem c9_normalizes_witness :
    formatPhoneNumber "+91 98765-43210"
      = String.mk (stripLeadPlus (cleanChars ("+91 98765-43210").data) ++ "@c.us".data)
    ∧ (stripLeadPlus (cleanChars ("+91 98765-43210").data)).all (fun c => c.isDigit) = true :=
  c9_normalizes_to_digits "+91 98765-43210" (by decide)
